import Mathlib

/-!
Shallow embedding of `kats/models/metalearner/metalearner_modelselect.py`
(classes `MetaLearnModelSelect` and `RandomDownSampler`) and proofs of the
spec claims about it.

Conventions of the embedding:
* Python floats are modelled by `ℚ`; a float that may be NaN is `Option ℚ`
  (with `none` = NaN, and NaN-propagating arithmetic where the source can
  meet NaN).  `np.std`'s square root is modelled by `Rat.sqrt`; no claim
  depends on the numeric value of a standard deviation, only on shapes.
* Raised Python exceptions become an `Except PyError` result; the
  `ValueError` messages are the exact strings from the source.
* External collaborators (the sklearn classifier backends, the TsFeatures
  extractor, `train_test_split`, `np.random`) are out of scope per the spec
  and enter as explicit function parameters; their contracts become
  hypotheses of the theorems.
* The state of a `MetaLearnModelSelect` instance is the record `MLMSState`;
  methods become functions on it.
-/

namespace Kats

/-- Python exceptions surfaced by the modelled code paths.  `valueError`
carries the message that the source both logs and raises. -/
inductive PyError where
  | valueError (msg : String)
  | typeError
  | attributeError
  | keyError
deriving DecidableEq, Repr

/-- One `hpt_res` table: a mapping from candidate-model name to a sequence
of numbers whose last element is the model's error (a Python dict, modelled
as an association list). -/
abbrev Hpt := List (String × List ℚ)

/-- One raw metadata record.  Each field is `Option`al so that the source's
`"field" in metadata[0]` membership checks and the `KeyError` on a missing
field during `_reorganize_data` are expressible. -/
structure MetaRecord where
  hpt_res : Option Hpt
  features : Option (List (String × Option ℚ))
  best_model : Option String
deriving DecidableEq

/-- A fitted sklearn classifier, reduced to the interface the source uses:
`classes_`, `predict` (per row), `predict_proba` (per row), and — for the
random forest used by `pred_fuzzy` — the member `estimators_`, each exposing
its own per-row `predict_proba`. -/
structure Clf where
  classes : List String
  predict : List ℚ → String
  predict_proba : List ℚ → List ℚ
  estimators : List (List ℚ → List ℚ)

/-- The attribute state of a `MetaLearnModelSelect` instance after a
successful metadata construction. -/
structure MLMSState where
  hpt : List Hpt
  metadataX : List (List ℚ)
  metadataY : List String
  x_mean : List ℚ
  x_std : List ℚ
  scale : Bool
  clf : Option Clf

/-- `np.mean` of a list (division by zero yields 0 on the never-exercised
empty list). -/
def npMean (l : List ℚ) : ℚ := l.sum / (l.length : ℚ)

/-- `np.median` of a list: sort, take the middle element (odd length) or the
average of the two middle elements (even length). -/
def npMedian (l : List ℚ) : ℚ :=
  let s := List.insertionSort (· ≤ ·) l
  if l.length % 2 = 1 then s.getD (l.length / 2) 0
  else (s.getD (l.length / 2 - 1) 0 + s.getD (l.length / 2) 0) / 2

/-- Number of columns of a row-major matrix (taken from the first row). -/
def numCols (m : List (List ℚ)) : Nat := (m.headD []).length

/-- Column `j` of a row-major matrix. -/
def colAt (m : List (List ℚ)) (j : Nat) : List ℚ := m.map (fun row => row.getD j 0)

/-- `np.average(m, axis=0)`: per-column mean. -/
def colMeans (m : List (List ℚ)) : List ℚ :=
  (List.range (numCols m)).map (fun j => npMean (colAt m j))

/-- `np.std(m, axis=0)`: per-column population standard deviation.
`Rat.sqrt` stands in for the real square root; only the shape of the result
matters to any claim. -/
def colStds (m : List (List ℚ)) : List ℚ :=
  (List.range (numCols m)).map (fun j =>
    Rat.sqrt (npMean ((colAt m j).map (fun v => (v - npMean (colAt m j)) ^ 2))))

/-- `x_std[x_std == 0] = 1.0`. -/
def floorZeros (l : List ℚ) : List ℚ := l.map (fun v => if v = 0 then 1 else v)

/-- Elementwise `(row - mean) / std` on a NaN-free row. -/
def scaleRowQ (mean std row : List ℚ) : List ℚ :=
  (row.zip (mean.zip std)).map (fun p => (p.1 - p.2.1) / p.2.2)

/-- Elementwise `(row - mean) / std` on a row that may contain NaN (`none`);
NaN propagates, as in numpy. -/
def scaleRowO (mean std : List ℚ) (row : List (Option ℚ)) : List (Option ℚ) :=
  (row.zip (mean.zip std)).map (fun p => p.1.map (fun v => (v - p.2.1) / p.2.2))

/-- `np.argsort(-p)`: the indices of `p` ordered by non-increasing value
(ties in an unspecified order; a stable sort realizes one valid order). -/
def argsortDesc (p : List ℚ) : List Nat :=
  List.insertionSort (fun i j => p.getD j 0 ≤ p.getD i 0) (List.range p.length)

/-- Helper for `firstOccs`: the elements of the list not yet in `seen`, in
order of first occurrence. -/
def firstOccsAux (seen : List String) : List String → List String
  | [] => []
  | a :: l => if a ∈ seen then firstOccsAux seen l else a :: firstOccsAux (seen ++ [a]) l

/-- The distinct elements of a list in order of first occurrence — the key
order of a Python dict built by insertion (`Counter`, `defaultdict`) and of
`pandas.Series.unique`. -/
def firstOccs (l : List String) : List String := firstOccsAux [] l

/-- The row indices carrying label `c`: the `idx_dict[c]` built by
`for i, c in enumerate(dataY)` in `RandomDownSampler.fit_resample`. -/
def classIndices (ys : List String) (c : String) : List Nat :=
  (List.range ys.length).filter (fun i => ys.getD i "" = c)

/-- `min(Counter(dataY).values())`: the size of the smallest label class. -/
def minCount (ys : List String) : Nat :=
  (((firstOccs ys).map (fun c => ys.count c)).min?).getD 0

/-- `RandomDownSampler.fit_resample`.  The call
`np.random.choice(idx_dict[key], size=min_n, replace=False)` is modelled by
the parameter `choose`, which is handed the class label and that class's
index list; its contract (returns `min_n` distinct members of the list) is a
hypothesis of the theorems.  Returns `(resampled_hpt, resampled_x,
resampled_y)` exactly as the source does. -/
def fit_resample (choose : String → List Nat → List Nat)
    (hpt : List Hpt) (dataX : List (List ℚ)) (dataY : List String) :
    List Hpt × List (List ℚ) × List String :=
  let keys := firstOccs dataY
  let picks := keys.map (fun k => choose k (classIndices dataY k))
  (picks.flatMap (fun sel => sel.map (fun i => hpt.getD i [])),
   picks.flatMap (fun sel => sel.map (fun i => dataX.getD i [])),
   picks.flatMap (fun sel => sel.map (fun i => dataY.getD i "")))

/-- The index selection used by `fit_resample` flattened across classes, in
class-iteration order: the common row origin of all three outputs. -/
def resampleIdx (choose : String → List Nat → List Nat) (dataY : List String) : List Nat :=
  ((firstOccs dataY).map (fun k => choose k (classIndices dataY k))).flatMap id

/-- Validity of a concrete `choose` as a model of
`np.random.choice(l, size=minCount, replace=False)` for the class-index
lists of `ys`. -/
abbrev ValidChoose (choose : String → List Nat → List Nat) (ys : List String) : Prop :=
  ∀ k ∈ firstOccs ys,
    (choose k (classIndices ys k)).length = minCount ys ∧
    (choose k (classIndices ys k)).Nodup ∧
    ∀ i ∈ choose k (classIndices ys k), i ∈ classIndices ys k

/- ---------------------------------------------------------------------
Constructor (`__init__`, `_reorganize_data`, `_validate_data`)
--------------------------------------------------------------------- -/

def smallMsg : String := "Dataset is too small to train a meta learner!"

def missingMetadataMsg : String := "Missing metadata!"

def missingHptMsg : String := "Missing best hyper-params, not able to train a meta learner!"

def missingFeatMsg : String := "Missing time series features, not able to train a meta learner!"

def missingModelMsg : String := "Missing best models, not able to train a meta learner!"

def oneClassMsg : String :=
  "Only one class in the label column (best_model), not able to train a classifier!"

/-- `_reorganize_data`.  The source loops over every record and reads
`metadata[i]["hpt_res"]`, `["features"]`, `["best_model"]`; a record missing
any of the three raises `KeyError`.  Otherwise it builds the `hpt` series,
the feature matrix (`fillna(0)` turns NaN entries into 0) and the label
series.  (The `isinstance(..., str)`/`ast.literal_eval` branches only parse
string-encoded fields into the same values and are absorbed by modelling
fields as already parsed.) -/
def reorganize (md : List MetaRecord) :
    Except PyError (List Hpt × List (List ℚ) × List String) :=
  if md.any (fun r => r.hpt_res.isNone || r.features.isNone || r.best_model.isNone) then
    .error .keyError
  else
    .ok (md.map (fun r => r.hpt_res.getD []),
         md.map (fun r => (r.features.getD []).map (fun p => p.2.getD 0)),
         md.map (fun r => r.best_model.getD ""))

/-- Result of `MetaLearnModelSelect.__init__`: with `load_model=True` the
body is `pass` and no attributes are set (`skipLoad`); otherwise a validated
construction yields the attribute state (`built`). -/
inductive InitResult where
  | skipLoad
  | built (s : MLMSState)

/-- `MetaLearnModelSelect.__init__`.  Note the source's check order: it
evaluates `len(metadata)` first, so `metadata=None` raises `TypeError`
(`len()` on `None`) and the explicit
`if metadata is None: raise ValueError("Missing metadata!")` that follows is
unreachable.  `_validate_data`'s imbalance advisories are log-only no-ops;
only its single-class check raises. -/
def init (metadata : Option (List MetaRecord)) (load_model : Bool) :
    Except PyError InitResult :=
  if load_model then .ok .skipLoad
  else
    match metadata with
    | none => .error .typeError
    | some md =>
      if md.length ≤ 30 then .error (.valueError smallMsg)
      else
        let r0 := md.headD ⟨none, none, none⟩
        if r0.hpt_res.isNone then .error (.valueError missingHptMsg)
        else if r0.features.isNone then .error (.valueError missingFeatMsg)
        else if r0.best_model.isNone then .error (.valueError missingModelMsg)
        else
          match reorganize md with
          | .error e => .error e
          | .ok (hpt, mX, mY) =>
            if (firstOccs mY).length = 1 then .error (.valueError oneClassMsg)
            else .ok (.built
              { hpt := hpt, metadataX := mX, metadataY := mY,
                x_mean := colMeans mX, x_std := floorZeros (colStds mX),
                scale := false, clf := none })

/- ---------------------------------------------------------------------
`preprocess`
--------------------------------------------------------------------- -/

/-- `MetaLearnModelSelect.preprocess(downsample, scale)`.  Downsampling
replaces the three row-aligned series via `RandomDownSampler.fit_resample`
and recomputes the column mean/std (std floored at 1); scaling sets the
`scale` flag and replaces the feature matrix by `(x - mean) / std`. -/
def preprocess (choose : String → List Nat → List Nat) (downsample scale : Bool)
    (s : MLMSState) : MLMSState :=
  let s1 := if downsample then
      let r := fit_resample choose s.hpt s.metadataX s.metadataY
      { s with hpt := r.1, metadataX := r.2.1, metadataY := r.2.2,
               x_mean := colMeans r.2.1, x_std := floorZeros (colStds r.2.1) }
    else s
  if scale then
    { s1 with scale := true,
              metadataX := s1.metadataX.map (fun row => scaleRowQ s1.x_mean s1.x_std row) }
  else s1

/- ---------------------------------------------------------------------
`train`
--------------------------------------------------------------------- -/

def methodMsg : String := "Only support RandomForest, GBDT, SVM, KNN, and NaiveBayes method."

def evalMsg : String := "Only support mean and median as evaluation method."

def testSizeMsg : String := "Illegal test set."

/-- The six-way output of `train_test_split(metadataX, metadataY, hpt,
test_size=...)`; the split itself is an external randomized collaborator and
enters `train` as a parameter producing this record. -/
structure SplitData where
  x_train : List (List ℚ)
  x_test : List (List ℚ)
  y_train : List String
  y_test : List String
  hpt_train : List Hpt
  hpt_test : List Hpt

/-- The five external classifier constructors `train` can dispatch to; each
takes its hyperparameter (where it has one) and the training data and
returns a fitted classifier. -/
structure Backends where
  mkRF : Nat → List (List ℚ) → List String → Clf
  mkGBDT : List (List ℚ) → List String → Clf
  mkSVM : List (List ℚ) → List String → Clf
  mkKNN : Nat → List (List ℚ) → List String → Clf
  mkNB : List (List ℚ) → List String → Clf

/-- The dictionary returned by `train`. -/
structure TrainResult where
  fit_error : List (String × ℚ)
  pred_error : List (String × ℚ)
  clf_accuracy : ℚ

/-- `hpt_row[c][-1]`: the error recorded for candidate model `c` in one
row's hyperparameter table. -/
def hptErr (h : Hpt) (c : String) : ℚ :=
  ((((h.find? (fun p => p.1 = c)).map Prod.snd).getD [])).getLastD 0

/-- `MetaLearnModelSelect.train`.  Validation happens, in source order,
before the split and before any classifier is constructed or fitted; on a
validation failure the selector's state is returned unchanged next to the
raised error.  On success the fitted classifier is stored
(`self.clf = clf`). -/
def train (split : ℚ → MLMSState → SplitData) (bk : Backends) (s : MLMSState)
    (method eval_method : String) (test_size : ℚ) (n_trees n_neighbors : Nat) :
    MLMSState × Except PyError TrainResult :=
  if method ∉ ["RandomForest", "GBDT", "SVM", "KNN", "NaiveBayes"] then
    (s, .error (.valueError methodMsg))
  else if eval_method ∉ ["mean", "median"] then
    (s, .error (.valueError evalMsg))
  else if test_size ≤ 0 ∨ 1 ≤ test_size then
    (s, .error (.valueError testSizeMsg))
  else
    let d := split test_size s
    let clf :=
      if method = "RandomForest" then bk.mkRF n_trees d.x_train d.y_train
      else if method = "GBDT" then bk.mkGBDT d.x_train d.y_train
      else if method = "SVM" then bk.mkSVM d.x_train d.y_train
      else if method = "KNN" then bk.mkKNN n_neighbors d.x_train d.y_train
      else bk.mkNB d.x_train d.y_train
    let y_fit := d.x_train.map clf.predict
    let y_pred := d.x_test.map clf.predict
    let em := if eval_method = "mean" then npMean else npMedian
    let fit_error :=
      ("meta-learn", em ((d.hpt_train.zip y_fit).map (fun p => hptErr p.1 p.2))) ::
        (firstOccs s.metadataY).map
          (fun lab => (lab, em (d.hpt_train.map (fun h => hptErr h lab))))
    let pred_error :=
      ("meta-learn", em ((d.hpt_test.zip y_pred).map (fun p => hptErr p.1 p.2))) ::
        (firstOccs s.metadataY).map
          (fun lab => (lab, em (d.hpt_test.map (fun h => hptErr h lab))))
    let acc : ℚ :=
      (((d.y_test.zip y_pred).filter (fun p => p.1 = p.2)).length : ℚ) /
        (d.y_test.length : ℚ)
    ({ s with clf := some clf },
     .ok { fit_error := fit_error, pred_error := pred_error, clf_accuracy := acc })

/- ---------------------------------------------------------------------
`pred_by_feature`, `pred`
--------------------------------------------------------------------- -/

def noTrainMsg : String :=
  "Haven\x27t trained a model. Please train a model or load a model before predicting."

/-- The message of the `else` branch of the input dispatch.  The source
interpolates `type(source_x)` into it; the only type that reaches the branch
among the documented inputs is `pandas.DataFrame`, abbreviated here. -/
def invalidSourceMsg : String := "Invalid source_x type: DataFrame."

/-- The three documented input shapes of `pred_by_feature`: a 2-D ndarray, a
Python list of 1-D ndarrays, or a DataFrame.  Entries are `Option ℚ`
(`none` = NaN). -/
inductive SourceX where
  | ndarray (m : List (List (Option ℚ)))
  | pylist (ms : List (List (Option ℚ)))
  | dataFrame (m : List (List (Option ℚ)))
deriving DecidableEq

/-- The value of `pred_by_feature`: `clf.predict` output for `n_top = 1`
(1-D) or the top-label table otherwise (2-D). -/
inductive PredResult where
  | oneD (labels : List String)
  | twoD (labels : List (List String))
deriving DecidableEq

/-- The input dispatch of `pred_by_feature`: `np.row_stack` for a list (the
1-D arrays become the rows), `.copy()` for an ndarray, and
`raise ValueError(...)` for anything else — including a DataFrame, despite
the docstring listing it as supported. -/
def stackSource : SourceX → Except PyError (List (List (Option ℚ)))
  | .pylist ms => .ok ms
  | .ndarray m => .ok m
  | .dataFrame _ => .error (.valueError invalidSourceMsg)

/-- The `if self.scale: x = (x - mean) / std` step followed by
`x[np.isnan(x)] = 0.0`. -/
def normalizeX (s : MLMSState) (x0 : List (List (Option ℚ))) : List (List ℚ) :=
  let x1 := if s.scale then x0.map (scaleRowO s.x_mean s.x_std) else x0
  x1.map (fun row => row.map (fun v => v.getD 0))

/-- One row of `classes_[np.argsort(-prob, axis=1)][:, :n_top]`: the first
`n_top` class indices by non-increasing predicted probability. -/
def predRowIdx (clf : Clf) (row : List ℚ) (n_top : Nat) : List Nat :=
  (argsortDesc (clf.predict_proba row)).take n_top

/-- `MetaLearnModelSelect.pred_by_feature`. -/
def pred_by_feature (s : MLMSState) (source_x : SourceX) (n_top : Nat) :
    Except PyError PredResult :=
  match s.clf with
  | none => .error (.valueError noTrainMsg)
  | some clf =>
    match stackSource source_x with
    | .error e => .error e
    | .ok x0 =>
      let x := normalizeX s x0
      if n_top = 1 then .ok (.oneD (x.map clf.predict))
      else .ok (.twoD (x.map (fun row =>
        (predRowIdx clf row n_top).map (fun i => clf.classes.getD i ""))))

/-- Result of `pred`: `pred_by_feature(...)[0]`, a single label when
`n_top = 1` and a label list otherwise. -/
inductive PredOut where
  | single (label : String)
  | multi (labels : List String)
deriving DecidableEq

/-- `MetaLearnModelSelect.pred`.  The time series is its value list `tsv`;
the TsFeatures collaborator is the parameter `extract` (its output may
contain NaN, which is only warned about).  The trained-state check happens
before the optional max-rescale and the feature extraction. -/
def pred (extract : List ℚ → List (Option ℚ)) (s : MLMSState) (tsv : List ℚ)
    (ts_scale : Bool) (n_top : Nat) : Except PyError PredOut :=
  match s.clf with
  | none => .error (.valueError noTrainMsg)
  | some _ =>
    let ts := if ts_scale then tsv.map (fun v => v / ((tsv.max?).getD 0)) else tsv
    let fv := extract ts
    match pred_by_feature s (.pylist [fv]) n_top with
    | .error e => .error e
    | .ok (.oneD ls) => .ok (.single (ls.getD 0 ""))
    | .ok (.twoD ls) => .ok (.multi (ls.getD 0 []))

/- ---------------------------------------------------------------------
`_bootstrap`, `pred_fuzzy`
--------------------------------------------------------------------- -/

/-- `reshape(-1, n)` of a flat row-major list: row `t` holds the elements
at positions `[t*n, t*n + n)`; the row count is `⌈length / n⌉` (the source
only reshapes lists whose length is an exact multiple of `n`). -/
def chunksQ (n : Nat) (l : List ℚ) : List (List ℚ) :=
  (List.range ((l.length + n - 1) / n)).map (fun t => (l.drop (t * n)).take n)

/-- `MetaLearnModelSelect._bootstrap(data, rep)`.  `data` is the `(n × 2)`
matrix of the two candidate columns; the draw
`np.random.choice(np.arange(n), n * rep)` is the parameter `idx` (its
contract — length `n * rep`, entries `< n` — is a hypothesis of the
theorems).  The p-value is `np.average(bs < 0)`: the fraction of resample
means that are strictly negative. -/
def _bootstrap (idx : List Nat) (data : List (ℚ × ℚ)) : ℚ :=
  let diff := data.map (fun r => r.1 - r.2)
  let n := diff.length
  let sample := idx.map (fun i => diff.getD i 0)
  let bs := (chunksQ n sample).map npMean
  npMean (bs.map (fun b => if b < 0 then (1 : ℚ) else 0))

/-- The feature vector `pred_fuzzy` feeds to the forest: optional
max-rescale of the series, feature extraction, NaN→0, then the fit-time
scaling if the selector was fit scaled.  (Unlike `pred_by_feature`, the
NaN fill here precedes the scaling, as in the source.) -/
def fuzzyTest (extract : List ℚ → List (Option ℚ)) (s : MLMSState) (tsv : List ℚ)
    (ts_scale : Bool) : List ℚ :=
  let ts := if ts_scale then tsv.map (fun v => v / ((tsv.max?).getD 0)) else tsv
  let test0 := (extract ts).map (fun v => v.getD 0)
  if s.scale then scaleRowQ s.x_mean s.x_std test0 else test0

/-- The dictionary returned by `pred_fuzzy`. -/
structure FuzzyAns where
  label : List String
  probability : List ℚ
  pvalue : ℚ
deriving DecidableEq

/-- The bootstrap p-value computed inside `pred_fuzzy`: each tree's
per-class probability vector (`data`) restricted to the two columns
`idx[:2]`, handed to `_bootstrap`. -/
def fuzzyPValue (clf : Clf) (bootIdx : List Nat) (test : List ℚ)
    (idx : List Nat) : ℚ :=
  _bootstrap bootIdx ((clf.estimators.map (fun e => e test)).map
    (fun row => (row.getD (idx.getD 0 0) 0, row.getD (idx.getD 1 0) 0)))

/-- `MetaLearnModelSelect.pred_fuzzy`.  It performs no trained-state check:
with `self.clf = None` the attribute access `self.clf.estimators_` raises
`AttributeError` (not the `ValueError` that `pred`/`pred_by_feature`
raise).  `bootIdx` is the bootstrap draw passed through to `_bootstrap`
(default `rep = 200` in the source). -/
def pred_fuzzy (extract : List ℚ → List (Option ℚ)) (bootIdx : List Nat)
    (s : MLMSState) (tsv : List ℚ) (ts_scale : Bool) (sig_level : ℚ) :
    Except PyError FuzzyAns :=
  let test := fuzzyTest extract s tsv ts_scale
  match s.clf with
  | none => .error .attributeError
  | some clf =>
    let prob := clf.predict_proba test
    let idx := (argsortDesc prob).take 2
    let pvalue := fuzzyPValue clf bootIdx test idx
    if sig_level ≤ pvalue then
      .ok { label := idx.map (fun i => clf.classes.getD i ""),
            probability := idx.map (fun i => prob.getD i 0),
            pvalue := pvalue }
    else
      .ok { label := (idx.take 1).map (fun i => clf.classes.getD i ""),
            probability := (idx.take 1).map (fun i => prob.getD i 0),
            pvalue := pvalue }

/- ---------------------------------------------------------------------
Heap-level model of `pred_by_feature` (for the frame claim)
--------------------------------------------------------------------- -/

/-- A numpy array value that may hold NaN entries. -/
abbrev OMat := List (List (Option ℚ))

/-- A minimal heap of numpy arrays: array objects addressed by index.
Needed to express aliasing — that `.copy()`/`np.row_stack` allocate fresh
arrays and that `x[np.isnan(x)] = 0.0` mutates only the array `x` refers
to. -/
abbrev Store := List OMat

/-- The caller's `source_x` argument, by reference(s) into the store. -/
inductive SourceXRef where
  | ndarrayRef (r : Nat)
  | pylistRefs (rs : List Nat)
  | dataFrameRef (r : Nat)
deriving DecidableEq

/-- The store indices owned by the caller's argument. -/
def callerRefs : SourceXRef → List Nat
  | .ndarrayRef r => [r]
  | .pylistRefs rs => rs
  | .dataFrameRef r => [r]

/-- Whether the argument is the (rejected) DataFrame shape. -/
def SourceXRef.isDF : SourceXRef → Bool
  | .dataFrameRef _ => true
  | _ => false

/-- `np.row_stack` of a list of arrays: their rows concatenated into a fresh
array. -/
def rowStack (ms : List OMat) : OMat := ms.flatMap id

/-- `MetaLearnModelSelect.pred_by_feature`, replayed against the array heap
`σ`.  Same control flow as `pred_by_feature`; additionally faithful to the
source's aliasing: `np.row_stack(source_x)` and `source_x.copy()` allocate,
`x = (x - mean) / std` allocates and rebinds `x`, and
`x[np.isnan(x)] = 0.0` mutates in place the array `x` currently refers
to. -/
def pred_by_feature_store (s : MLMSState) (σ : Store) (src : SourceXRef)
    (n_top : Nat) : Store × Except PyError PredResult :=
  match s.clf with
  | none => (σ, .error (.valueError noTrainMsg))
  | some clf =>
    match (match src with
           | .pylistRefs rs => .ok (σ ++ [rowStack (rs.map (fun r => σ.getD r []))], σ.length)
           | .ndarrayRef r => .ok (σ ++ [σ.getD r []], σ.length)
           | .dataFrameRef _ => .error (.valueError invalidSourceMsg)
           : Except PyError (Store × Nat)) with
    | .error e => (σ, .error e)
    | .ok (σ1, xr) =>
      let p := if s.scale then
          (σ1 ++ [(σ1.getD xr []).map (scaleRowO s.x_mean s.x_std)], σ1.length)
        else (σ1, xr)
      let σ3 := p.1.set p.2 ((p.1.getD p.2 []).map (fun row => row.map (fun v => some (v.getD 0))))
      let x := (σ3.getD p.2 []).map (fun row => row.map (fun v => v.getD 0))
      (σ3,
       if n_top = 1 then .ok (.oneD (x.map clf.predict))
       else .ok (.twoD (x.map (fun row =>
         (predRowIdx clf row n_top).map (fun i => clf.classes.getD i "")))))

/- ---------------------------------------------------------------------
Concrete instances used by counterexamples and witnesses
--------------------------------------------------------------------- -/

/-- A small selector state in the Untrained state (`clf = None`,
`scale = False`), as produced by a successful metadata construction. -/
def untrainedEx : MLMSState :=
  { hpt := [[("arima", [0, 1/2])], [("theta", [0, 1/3])]],
    metadataX := [[1, 2], [3, 4]],
    metadataY := ["arima", "theta"],
    x_mean := [2, 3], x_std := [1, 1],
    scale := false, clf := none }

/-- A concrete fitted two-class classifier (constant probabilities). -/
def clfEx : Clf :=
  { classes := ["A", "B"],
    predict := fun _ => "A",
    predict_proba := fun _ => [mkRat 2 3, mkRat 1 3],
    estimators := [fun _ => [mkRat 1 2, mkRat 1 2], fun _ => [mkRat 3 4, mkRat 1 4]] }

/-- `untrainedEx` after a successful `train`: the Trained state. -/
def trainedEx : MLMSState := { untrainedEx with clf := some clfEx }

/-- A feature extractor for witnesses: the series values themselves. -/
def extractEx (l : List ℚ) : List (Option ℚ) := l.map some

/-- A deterministic stand-in for `np.random.choice(l, size=min_n,
replace=False)` used by witnesses: the first `min_n` indices of the class. -/
def chooseEx (ys : List String) : String → List Nat → List Nat :=
  fun _ l => l.take (minCount ys)

/-- A trivial `train_test_split` stand-in for witnesses. -/
def splitEx : ℚ → MLMSState → SplitData :=
  fun _ s => { x_train := s.metadataX, x_test := s.metadataX,
               y_train := s.metadataY, y_test := s.metadataY,
               hpt_train := s.hpt, hpt_test := s.hpt }

/-- Trivial classifier backends for witnesses. -/
def backendsEx : Backends :=
  { mkRF := fun _ _ _ => clfEx, mkGBDT := fun _ _ => clfEx,
    mkSVM := fun _ _ => clfEx, mkKNN := fun _ _ _ => clfEx,
    mkNB := fun _ _ => clfEx }

/- ---------------------------------------------------------------------
Claim C1
--------------------------------------------------------------------- -/

/-- C1 (counterexample): on a concrete Untrained selector, `pred_fuzzy`
fails with `AttributeError` (accessing `estimators_` on `None`), not with
the state `ValueError` carrying the logged message that the claim asserts
for all three prediction operations. -/
theorem C1_counterexample :
    pred_fuzzy extractEx [] untrainedEx [1] true (1/5) = .error .attributeError ∧
    PyError.attributeError ≠ PyError.valueError noTrainMsg :=
  ⟨rfl, fun h => PyError.noConfusion h⟩

/-- C1 (amended): on every selector in the Untrained state (`clf = None`),
`pred` and `pred_by_feature` fail with the state `ValueError` whose message
is the logged one and return no result; `pred_fuzzy` also fails and returns
no result, but — since it performs no trained-state check — with an
`AttributeError` from `self.clf.estimators_`, not with that `ValueError`. -/
theorem C1_untrained_prediction_errors (s : MLMSState) (h : s.clf = none)
    (extract : List ℚ → List (Option ℚ)) (bootIdx : List Nat) (tsv : List ℚ)
    (src : SourceX) (ts_scale : Bool) (n_top : Nat) (sig_level : ℚ) :
    pred extract s tsv ts_scale n_top = .error (.valueError noTrainMsg) ∧
    pred_by_feature s src n_top = .error (.valueError noTrainMsg) ∧
    pred_fuzzy extract bootIdx s tsv ts_scale sig_level = .error .attributeError := by
  refine ⟨?_, ?_, ?_⟩ <;> simp only [pred, pred_by_feature, pred_fuzzy, h]

/-- C1 (witness): the amended statement instantiated on a concrete
Untrained selector. -/
theorem C1_witness :
    untrainedEx.clf = none ∧
    pred extractEx untrainedEx [1, 2] true 1 = .error (.valueError noTrainMsg) ∧
    pred_by_feature untrainedEx (.ndarray [[some 1, some 2]]) 1
      = .error (.valueError noTrainMsg) ∧
    pred_fuzzy extractEx [0] untrainedEx [1, 2] true (1/5)
      = .error .attributeError :=
  ⟨rfl, C1_untrained_prediction_errors untrainedEx rfl extractEx [0] [1, 2]
    (.ndarray [[some 1, some 2]]) true 1 (1/5)⟩

/- ---------------------------------------------------------------------
Claim C2
--------------------------------------------------------------------- -/

/-- C2 (code bug, evaluated at the failing input): constructing with
`metadata=None, load_model=False` evaluates `len(metadata)` first and so
raises `TypeError`; the source's own
`if metadata is None: raise ValueError("Missing metadata!")` branch —
the behaviour the claim describes — is unreachable dead code. -/
theorem C2_none_metadata_typeerror :
    init none false = .error .typeError ∧
    PyError.typeError ≠ PyError.valueError missingMetadataMsg :=
  ⟨rfl, fun h => PyError.noConfusion h⟩

/- ---------------------------------------------------------------------
Claim C5
--------------------------------------------------------------------- -/

/-- C5 (code bug, evaluated at the failing input): on a trained selector,
`pred_by_feature` normalizes and predicts for an ndarray and for a list of
vectors, but a DataFrame — documented in its own docstring as a supported
input — falls through the isinstance dispatch to
`raise ValueError("Invalid source_x type: ...")`. -/
theorem C5_dataframe_rejected :
    pred_by_feature trainedEx (.ndarray [[some 1, some 2]]) 1 = .ok (.oneD ["A"]) ∧
    pred_by_feature trainedEx (.pylist [[some 1, some 2], [some 3, none]]) 1
      = .ok (.oneD ["A", "A"]) ∧
    pred_by_feature trainedEx (.dataFrame [[some 1, some 2]]) 1
      = .error (.valueError invalidSourceMsg) :=
  ⟨rfl, rfl, rfl⟩

/- ---------------------------------------------------------------------
Claim C6
--------------------------------------------------------------------- -/

/-- C6: `train` validates `method`, then `eval_method`, then `test_size`,
in source order, before the train/test split and before any classifier is
constructed or fitted: on a violation the result does not depend on the
split or on the classifier backends, the returned state is exactly the
input state (stored classifier and metadata unchanged), and the raised
`ValueError` carries the corresponding logged message. -/
theorem C6_train_validation (method eval_method : String) (test_size : ℚ)
    (n_trees n_neighbors : Nat) (s : MLMSState) :
    (method ∉ ["RandomForest", "GBDT", "SVM", "KNN", "NaiveBayes"] →
      ∀ split bk, train split bk s method eval_method test_size n_trees n_neighbors
        = (s, .error (.valueError methodMsg))) ∧
    (method ∈ ["RandomForest", "GBDT", "SVM", "KNN", "NaiveBayes"] →
      eval_method ∉ ["mean", "median"] →
      ∀ split bk, train split bk s method eval_method test_size n_trees n_neighbors
        = (s, .error (.valueError evalMsg))) ∧
    (method ∈ ["RandomForest", "GBDT", "SVM", "KNN", "NaiveBayes"] →
      eval_method ∈ ["mean", "median"] →
      test_size ≤ 0 ∨ 1 ≤ test_size →
      ∀ split bk, train split bk s method eval_method test_size n_trees n_neighbors
        = (s, .error (.valueError testSizeMsg))) := by
  refine ⟨fun h1 split bk => ?_, fun h1 h2 split bk => ?_, fun h1 h2 h3 split bk => ?_⟩ <;>
    simp only [train, if_pos, if_neg, not_not, *] <;> simp [*]

/-- C6 (witness): `test_size = 0` with otherwise valid arguments fails with
the `Illegal test set.` error and leaves the state untouched, for the
concrete split and backends. -/
theorem C6_witness :
    "RandomForest" ∈ ["RandomForest", "GBDT", "SVM", "KNN", "NaiveBayes"] ∧
    "mean" ∈ ["mean", "median"] ∧ ((0 : ℚ) ≤ 0 ∨ 1 ≤ (0 : ℚ)) ∧
    train splitEx backendsEx untrainedEx "RandomForest" "mean" 0 500 5
      = (untrainedEx, .error (.valueError testSizeMsg)) :=
  ⟨by decide, by decide, Or.inl le_rfl,
   (C6_train_validation "RandomForest" "mean" 0 500 5 untrainedEx).2.2
     (by decide) (by decide) (Or.inl le_rfl) splitEx backendsEx⟩

/- ---------------------------------------------------------------------
Supporting lemmas: `firstOccs`, `classIndices`, `fit_resample`
--------------------------------------------------------------------- -/

theorem mem_firstOccsAux (a : String) :
    ∀ (l seen : List String), a ∈ firstOccsAux seen l ↔ a ∈ l ∧ a ∉ seen := by
  intro l
  induction l with
  | nil => intro seen; simp [firstOccsAux]
  | cons x t ih =>
    intro seen
    by_cases hx : x ∈ seen
    · rw [firstOccsAux, if_pos hx, ih]
      constructor
      · rintro ⟨hat, has⟩; exact ⟨List.mem_cons_of_mem _ hat, has⟩
      · rintro ⟨hax, has⟩
        rcases List.mem_cons.mp hax with h | h
        · exact absurd (h ▸ hx) has
        · exact ⟨h, has⟩
    · rw [firstOccsAux, if_neg hx, List.mem_cons, ih]
      by_cases hax : a = x
      · subst hax; simp [hx]
      · simp only [hax, false_or]
        constructor
        · rintro ⟨hat, has⟩
          refine ⟨List.mem_cons_of_mem _ hat, fun hs => has ?_⟩
          simp [List.mem_append, hs]
        · rintro ⟨hax2, has⟩
          rcases List.mem_cons.mp hax2 with h | h
          · exact absurd h hax
          · refine ⟨h, fun hs => ?_⟩
            rcases List.mem_append.mp hs with h2 | h2
            · exact has h2
            · exact hax (by simpa using h2)

theorem mem_firstOccs (a : String) (l : List String) : a ∈ firstOccs l ↔ a ∈ l := by
  rw [firstOccs, mem_firstOccsAux]
  simp

theorem nodup_firstOccsAux : ∀ (l seen : List String), (firstOccsAux seen l).Nodup := by
  intro l
  induction l with
  | nil => intro seen; simp [firstOccsAux]
  | cons x t ih =>
    intro seen
    by_cases hx : x ∈ seen
    · rw [firstOccsAux, if_pos hx]; exact ih _
    · rw [firstOccsAux, if_neg hx, List.nodup_cons]
      refine ⟨fun hmem => ?_, ih _⟩
      exact ((mem_firstOccsAux x t _).mp hmem).2 (by simp)

theorem nodup_firstOccs (l : List String) : (firstOccs l).Nodup :=
  nodup_firstOccsAux l []

theorem mem_classIndices (ys : List String) (c : String) (i : Nat) :
    i ∈ classIndices ys c ↔ i < ys.length ∧ ys.getD i "" = c := by
  simp [classIndices, List.mem_filter, List.mem_range]

theorem sum_map_const {α : Type} (l : List α) (m : Nat) :
    (l.map (fun _ => m)).sum = l.length * m := by
  induction l with
  | nil => simp
  | cons a t ih => simp [ih, Nat.succ_mul, Nat.add_comm]

theorem count_of_all_eq {l : List String} {k c : String} (h : ∀ b ∈ l, b = k) :
    l.count c = if c = k then l.length else 0 := by
  by_cases hc : c = k
  · subst hc
    simp only [if_pos rfl]
    exact List.count_eq_length.mpr (fun b hb => by simp [h b hb])
  · simp only [if_neg hc]
    exact List.count_eq_zero.mpr (fun hcl => hc (h c hcl))

theorem sum_if_mem {keys : List String} {c : String} (m : Nat)
    (hnd : keys.Nodup) (hc : c ∈ keys) :
    (keys.map (fun k => if c = k then m else 0)).sum = m := by
  induction keys with
  | nil => cases hc
  | cons k t ih =>
    rcases List.mem_cons.mp hc with h | h
    · subst h
      have : ∀ x ∈ t, ¬ c = x := fun x hx hcx => (List.nodup_cons.mp hnd).1 (hcx ▸ hx)
      have hz : (t.map (fun k => if c = k then m else 0)).sum = 0 := by
        rw [List.sum_eq_zero]
        intro v hv
        rcases List.mem_map.mp hv with ⟨x, hx, hvx⟩
        simp [this x hx] at hvx
        omega
      simp [hz]
    · have hk : ¬ c = k := fun hck => (List.nodup_cons.mp hnd).1 (hck ▸ h)
      simp [hk, ih (List.nodup_cons.mp hnd).2 h]

theorem flatMap_map_comm {α : Type} (picks : List (List Nat)) (f : Nat → α) :
    picks.flatMap (fun sel => sel.map f) = (picks.flatMap id).map f := by
  induction picks with
  | nil => rfl
  | cons p t ih => simp only [List.flatMap_cons, List.map_append, ih, id]

/-- `fit_resample` in terms of the single flattened index selection: all
three outputs are the selections of their input series along the same row
indices. -/
theorem fit_resample_eq (choose : String → List Nat → List Nat)
    (hpt : List Hpt) (dataX : List (List ℚ)) (dataY : List String) :
    fit_resample choose hpt dataX dataY =
      ((resampleIdx choose dataY).map (fun i => hpt.getD i []),
       (resampleIdx choose dataY).map (fun i => dataX.getD i []),
       (resampleIdx choose dataY).map (fun i => dataY.getD i "")) := by
  unfold fit_resample resampleIdx
  exact Prod.ext (flatMap_map_comm _ _) (Prod.ext (flatMap_map_comm _ _) (flatMap_map_comm _ _))

theorem resampleIdx_mem (choose : String → List Nat → List Nat)
    (dataY : List String) (hch : ValidChoose choose dataY) :
    ∀ i ∈ resampleIdx choose dataY, i < dataY.length := by
  intro i hi
  unfold resampleIdx at hi
  rcases List.mem_flatMap.mp hi with ⟨sel, hsel, hisel⟩
  rcases List.mem_map.mp hsel with ⟨k, hk, hks⟩
  have := (hch k hk).2.2 i (by simpa [hks] using hisel)
  exact ((mem_classIndices dataY k i).mp this).1

theorem resampleIdx_length (choose : String → List Nat → List Nat)
    (dataY : List String) (hch : ValidChoose choose dataY) :
    (resampleIdx choose dataY).length = (firstOccs dataY).length * minCount dataY := by
  unfold resampleIdx
  rw [List.length_flatMap]
  have h2 : (((firstOccs dataY).map (fun k => choose k (classIndices dataY k))).map
        (List.length ∘ id)).sum
      = ((firstOccs dataY).map (fun _ => minCount dataY)).sum := by
    rw [List.map_map]
    congr 1
    exact List.map_congr_left (fun k hk => by simp [Function.comp, (hch k hk).1])
  rw [h2, sum_map_const]

/- ---------------------------------------------------------------------
Claim C3
--------------------------------------------------------------------- -/

/-- C3: for every row-aligned input triple with at least one row and any
valid realization of the per-class random draw,
`RandomDownSampler.fit_resample` returns a triple in which every input
label class occurs exactly `minCount` times in the resampled labels, and
each of the three outputs has `minCount × (number of distinct input
labels)` rows. -/
theorem C3_fit_resample_balanced (choose : String → List Nat → List Nat)
    (hpt : List Hpt) (dataX : List (List ℚ)) (dataY : List String)
    (_hne : dataY ≠ []) (hch : ValidChoose choose dataY) :
    (∀ c ∈ dataY, (fit_resample choose hpt dataX dataY).2.2.count c = minCount dataY) ∧
    (fit_resample choose hpt dataX dataY).2.2.length
      = minCount dataY * (firstOccs dataY).length ∧
    (fit_resample choose hpt dataX dataY).1.length
      = minCount dataY * (firstOccs dataY).length ∧
    (fit_resample choose hpt dataX dataY).2.1.length
      = minCount dataY * (firstOccs dataY).length := by
  have hkeys := nodup_firstOccs dataY
  refine ⟨?_, ?_, ?_, ?_⟩
  · intro c hc
    have hck : c ∈ firstOccs dataY := (mem_firstOccs c dataY).mpr hc
    show (((firstOccs dataY).map (fun k => choose k (classIndices dataY k))).flatMap
        (fun sel => sel.map (fun i => dataY.getD i ""))).count c = minCount dataY
    rw [List.count_flatMap, List.map_map]
    have hmap : ((firstOccs dataY).map
        ((List.count c ∘ fun sel => sel.map fun i => dataY.getD i "") ∘
          fun k => choose k (classIndices dataY k)))
        = (firstOccs dataY).map (fun k => if c = k then minCount dataY else 0) := by
      refine List.map_congr_left (fun k hk => ?_)
      have hall : ∀ b ∈ (choose k (classIndices dataY k)).map
          (fun i => dataY.getD i ""), b = k := by
        intro b hb
        rcases List.mem_map.mp hb with ⟨i, hi, hgi⟩
        have hik := ((mem_classIndices dataY k i).mp ((hch k hk).2.2 i hi)).2
        rw [← hgi]; exact hik
      simp only [Function.comp]
      rw [count_of_all_eq hall, List.length_map, (hch k hk).1]
    rw [hmap, sum_if_mem (minCount dataY) hkeys hck]
  all_goals
    rw [fit_resample_eq]
    simp [resampleIdx_length choose dataY hch, Nat.mul_comm]

/-- C3 (witness): a concrete three-row input with classes A (2 rows) and
B (1 row): after downsampling both classes occur exactly once and the
output has `1 × 2` rows. -/
theorem C3_witness :
    (["A", "B", "A"] : List String) ≠ [] ∧
    ValidChoose (chooseEx ["A", "B", "A"]) ["A", "B", "A"] ∧
    (∀ c ∈ (["A", "B", "A"] : List String),
      (fit_resample (chooseEx ["A", "B", "A"])
        [[("a", [1])], [("a", [2])], [("a", [3])]]
        [[1], [2], [3]] ["A", "B", "A"]).2.2.count c = minCount ["A", "B", "A"]) ∧
    (fit_resample (chooseEx ["A", "B", "A"])
      [[("a", [1])], [("a", [2])], [("a", [3])]]
      [[1], [2], [3]] ["A", "B", "A"]).2.2.length
        = minCount ["A", "B", "A"] * (firstOccs ["A", "B", "A"]).length :=
  ⟨by decide, by decide,
   (C3_fit_resample_balanced (chooseEx ["A", "B", "A"])
      [[("a", [1])], [("a", [2])], [("a", [3])]]
      [[1], [2], [3]] ["A", "B", "A"] (by decide) (by decide)).1,
   (C3_fit_resample_balanced (chooseEx ["A", "B", "A"])
      [[("a", [1])], [("a", [2])], [("a", [3])]]
      [[1], [2], [3]] ["A", "B", "A"] (by decide) (by decide)).2.1⟩

/- ---------------------------------------------------------------------
Supporting lemmas: `argsortDesc`, `normalizeX`
--------------------------------------------------------------------- -/

theorem argsortDesc_perm (p : List ℚ) :
    (argsortDesc p).Perm (List.range p.length) :=
  List.perm_insertionSort _ _

theorem argsortDesc_length (p : List ℚ) : (argsortDesc p).length = p.length := by
  rw [(argsortDesc_perm p).length_eq, List.length_range]

theorem argsortDesc_sorted (p : List ℚ) :
    (argsortDesc p).Pairwise (fun i j => p.getD j 0 ≤ p.getD i 0) := by
  haveI : IsTotal Nat (fun i j => p.getD j 0 ≤ p.getD i 0) :=
    ⟨fun a b => le_total _ _⟩
  haveI : IsTrans Nat (fun i j => p.getD j 0 ≤ p.getD i 0) :=
    ⟨fun _ _ _ h1 h2 => le_trans h2 h1⟩
  exact List.sorted_insertionSort _ _

theorem predRowIdx_length (clf : Clf) (row : List ℚ) (n_top : Nat) :
    (predRowIdx clf row n_top).length = min n_top (clf.predict_proba row).length := by
  rw [predRowIdx, List.length_take, argsortDesc_length]

theorem predRowIdx_sorted (clf : Clf) (row : List ℚ) (n_top : Nat) :
    (predRowIdx clf row n_top).Pairwise
      (fun i j => (clf.predict_proba row).getD j 0 ≤ (clf.predict_proba row).getD i 0) :=
  (argsortDesc_sorted (clf.predict_proba row)).sublist (List.take_sublist _ _)

/-- The chosen prefix of a descending argsort dominates every index outside
it. -/
theorem argsortDesc_take_dominates (p : List ℚ) (k : Nat) :
    ∀ j < p.length, j ∉ (argsortDesc p).take k →
      ∀ i ∈ (argsortDesc p).take k, p.getD j 0 ≤ p.getD i 0 := by
  intro j hj hjn i hi
  have hsplit : argsortDesc p = (argsortDesc p).take k ++ (argsortDesc p).drop k :=
    (List.take_append_drop k (argsortDesc p)).symm
  have hjall : j ∈ argsortDesc p := by
    rw [(argsortDesc_perm p).mem_iff, List.mem_range]; exact hj
  have hjdrop : j ∈ (argsortDesc p).drop k := by
    rcases List.mem_append.mp (hsplit ▸ hjall) with h | h
    · exact absurd h hjn
    · exact h
  have hpar := argsortDesc_sorted p
  rw [hsplit, List.pairwise_append] at hpar
  exact hpar.2.2 i hi j hjdrop

theorem normalizeX_length (s : MLMSState) (x0 : List (List (Option ℚ))) :
    (normalizeX s x0).length = x0.length := by
  rw [normalizeX]
  by_cases hs : s.scale <;> simp [hs]

/- ---------------------------------------------------------------------
Claim C4
--------------------------------------------------------------------- -/

/-- C4 (counterexample): on a trained two-class selector, `pred_by_feature`
with `n_top = 3` on a one-row input returns rows of 2 labels, not the 3 the
claim asserts for every `k > 1`. -/
theorem C4_counterexample :
    pred_by_feature trainedEx (.ndarray [[some 1, some 2]]) 3
      = .ok (.twoD [["A", "B"]]) ∧
    (["A", "B"] : List String).length ≠ 3 :=
  ⟨rfl, by decide⟩

/-- C4 (amended): for every trained selector and every accepted input of
`r` rows, `pred_by_feature` with `n_top = 1` returns a 1-D result with
exactly one predicted label per row (length `r`); with `n_top = k > 1` it
returns per row the labels of the first `min k numClasses` indices of a
descending argsort of that row's predicted class probabilities — so exactly
`k` labels per row whenever `k ≤ numClasses` — in non-increasing
probability order. -/
theorem C4_pred_by_feature_shape (s : MLMSState) (clf : Clf) (h : s.clf = some clf)
    (hproba : ∀ v, (clf.predict_proba v).length = clf.classes.length)
    (src : SourceX) (x0 : List (List (Option ℚ))) (hsrc : stackSource src = .ok x0)
    (n_top : Nat) :
    (n_top = 1 →
      pred_by_feature s src 1 = .ok (.oneD ((normalizeX s x0).map clf.predict)) ∧
      ((normalizeX s x0).map clf.predict).length = x0.length) ∧
    (1 < n_top →
      pred_by_feature s src n_top = .ok (.twoD ((normalizeX s x0).map (fun row =>
        (predRowIdx clf row n_top).map (fun i => clf.classes.getD i "")))) ∧
      ((normalizeX s x0).map (fun row =>
        (predRowIdx clf row n_top).map (fun i => clf.classes.getD i ""))).length
          = x0.length ∧
      ∀ row ∈ normalizeX s x0,
        ((predRowIdx clf row n_top).map (fun i => clf.classes.getD i "")).length
          = min n_top clf.classes.length ∧
        (predRowIdx clf row n_top).Pairwise
          (fun i j => (clf.predict_proba row).getD j 0
            ≤ (clf.predict_proba row).getD i 0)) := by
  constructor
  · rintro rfl
    rw [pred_by_feature, h, hsrc]
    exact ⟨rfl, by rw [List.length_map, normalizeX_length]⟩
  · intro hk
    have hne1 : n_top ≠ 1 := by omega
    refine ⟨?_, by rw [List.length_map, normalizeX_length], fun row _ => ?_⟩
    · rw [pred_by_feature, h, hsrc]
      simp only [hne1, if_neg, ite_false]
    · exact ⟨by rw [List.length_map, predRowIdx_length, hproba],
        predRowIdx_sorted clf row n_top⟩

/-- C4 (witness): the amended statement instantiated on the concrete
trained selector with `n_top = 2` and a one-row input. -/
theorem C4_witness :
    trainedEx.clf = some clfEx ∧
    stackSource (.ndarray [[some 1, some 2]]) = .ok [[some 1, some 2]] ∧
    (1 < 2 →
      pred_by_feature trainedEx (.ndarray [[some 1, some 2]]) 2
        = .ok (.twoD ((normalizeX trainedEx [[some 1, some 2]]).map (fun row =>
            (predRowIdx clfEx row 2).map (fun i => clfEx.classes.getD i "")))) ∧
      ((normalizeX trainedEx [[some 1, some 2]]).map (fun row =>
        (predRowIdx clfEx row 2).map (fun i => clfEx.classes.getD i ""))).length = 1 ∧
      ∀ row ∈ normalizeX trainedEx [[some 1, some 2]],
        ((predRowIdx clfEx row 2).map (fun i => clfEx.classes.getD i "")).length
          = min 2 clfEx.classes.length ∧
        (predRowIdx clfEx row 2).Pairwise
          (fun i j => (clfEx.predict_proba row).getD j 0
            ≤ (clfEx.predict_proba row).getD i 0)) :=
  ⟨rfl, rfl,
   (C4_pred_by_feature_shape trainedEx clfEx rfl (fun _ => rfl)
     (.ndarray [[some 1, some 2]]) [[some 1, some 2]] rfl 2).2⟩

/- ---------------------------------------------------------------------
Supporting lemmas: `chunksQ`, indicator sums
--------------------------------------------------------------------- -/

theorem ceilDiv_exact (n rep : Nat) (hn : 1 ≤ n) : (n * rep + n - 1) / n = rep := by
  have h1 : n * rep + n - 1 = (n - 1) + rep * n := by
    have := Nat.mul_comm n rep
    omega
  rw [h1, Nat.add_mul_div_right _ _ (by omega : 0 < n),
    Nat.div_eq_of_lt (by omega : n - 1 < n)]
  omega

theorem chunksQ_length (n rep : Nat) (l : List ℚ) (hn : 1 ≤ n)
    (hl : l.length = n * rep) : (chunksQ n l).length = rep := by
  rw [chunksQ, List.length_map, List.length_range, hl, ceilDiv_exact n rep hn]

theorem chunksQ_rows (n rep : Nat) (l : List ℚ) (hn : 1 ≤ n)
    (hl : l.length = n * rep) :
    ∀ g ∈ chunksQ n l, g.length = n ∧ ∀ v ∈ g, v ∈ l := by
  intro g hg
  rw [chunksQ] at hg
  rcases List.mem_map.mp hg with ⟨t, ht, hgt⟩
  rw [List.mem_range] at ht
  have htrep : t < rep := by rwa [hl, ceilDiv_exact n rep hn] at ht
  constructor
  · rw [← hgt, List.length_take, List.length_drop, hl]
    have hle : n ≤ n * rep - t * n := by
      have hmm : n * rep - t * n = n * (rep - t) := by
        rw [Nat.mul_sub, Nat.mul_comm t n]
      rw [hmm]
      exact Nat.le_mul_of_pos_right n (by omega)
    omega
  · intro v hv
    rw [← hgt] at hv
    exact List.drop_subset _ _ (List.take_subset _ _ hv)

theorem list_getD_mem {α : Type} (l : List α) (i : Nat) (d : α)
    (h : i < l.length) : l.getD i d ∈ l := by
  rw [List.getD_eq_getElem?_getD, List.getElem?_eq_getElem h, Option.getD_some]
  exact List.getElem_mem h

theorem sum_indicator_neg (bs : List ℚ) :
    (bs.map (fun b => if b < 0 then (1 : ℚ) else 0)).sum
      = ((bs.filter (fun b => decide (b < 0))).length : ℚ) := by
  induction bs with
  | nil => simp
  | cons b t ih =>
    by_cases hb : b < 0
    · simp [List.filter_cons, hb, ih]
      ring
    · simp [List.filter_cons, hb, ih]

/- ---------------------------------------------------------------------
Claim C8
--------------------------------------------------------------------- -/

/-- C8: for an `(n × 2)` input with `n ≥ 1`, `rep ≥ 1`, and any valid draw
`idx` (length `n*rep`, entries `< n`), `_bootstrap` builds the per-row
difference vector (column 0 minus column 1), partitions the `n*rep` drawn
difference values into `rep` resamples of size `n` taken from that vector,
and returns the fraction of resample means that are strictly negative —
hence a p-value in `[0, 1]`. -/
theorem C8_bootstrap_pvalue (data : List (ℚ × ℚ)) (idx : List Nat) (rep : Nat)
    (hn : 1 ≤ data.length) (hrep : 1 ≤ rep)
    (hlen : idx.length = data.length * rep)
    (hmem : ∀ i ∈ idx, i < data.length) :
    (chunksQ (data.map (fun r => r.1 - r.2)).length
        (idx.map (fun i => (data.map (fun r => r.1 - r.2)).getD i 0))).length = rep ∧
    (∀ g ∈ chunksQ (data.map (fun r => r.1 - r.2)).length
        (idx.map (fun i => (data.map (fun r => r.1 - r.2)).getD i 0)),
      g.length = data.length ∧ ∀ v ∈ g, v ∈ data.map (fun r => r.1 - r.2)) ∧
    _bootstrap idx data
      = ((((chunksQ (data.map (fun r => r.1 - r.2)).length
            (idx.map (fun i => (data.map (fun r => r.1 - r.2)).getD i 0))).map npMean).filter
          (fun b => decide (b < 0))).length : ℚ) / (rep : ℚ) ∧
    0 ≤ _bootstrap idx data ∧ _bootstrap idx data ≤ 1 := by
  have hdl : (data.map (fun r => r.1 - r.2)).length = data.length :=
    List.length_map _ _
  have hsl : (idx.map (fun i => (data.map (fun r => r.1 - r.2)).getD i 0)).length
      = (data.map (fun r => r.1 - r.2)).length * rep := by
    rw [List.length_map, hlen, hdl]
  have hn' : 1 ≤ (data.map (fun r => r.1 - r.2)).length := by omega
  have hglen : (chunksQ (data.map (fun r => r.1 - r.2)).length
      (idx.map (fun i => (data.map (fun r => r.1 - r.2)).getD i 0))).length = rep :=
    chunksQ_length _ rep _ hn' hsl
  have hrows := chunksQ_rows _ rep _ hn' hsl
  have hbslen : ((chunksQ (data.map (fun r => r.1 - r.2)).length
      (idx.map (fun i => (data.map (fun r => r.1 - r.2)).getD i 0))).map npMean).length
        = rep := by rw [List.length_map]; exact hglen
  have hindlen : (((chunksQ (data.map (fun r => r.1 - r.2)).length
      (idx.map (fun i => (data.map (fun r => r.1 - r.2)).getD i 0))).map npMean).map
        (fun b => if b < 0 then (1 : ℚ) else 0)).length = rep := by
    rw [List.length_map]; exact hbslen
  have hcount : _bootstrap idx data
      = ((((chunksQ (data.map (fun r => r.1 - r.2)).length
            (idx.map (fun i => (data.map (fun r => r.1 - r.2)).getD i 0))).map npMean).filter
          (fun b => decide (b < 0))).length : ℚ) / (rep : ℚ) := by
    show npMean (((chunksQ (data.map (fun r => r.1 - r.2)).length
        (idx.map (fun i => (data.map (fun r => r.1 - r.2)).getD i 0))).map npMean).map
          (fun b => if b < 0 then (1 : ℚ) else 0)) = _
    rw [npMean, sum_indicator_neg, hindlen]
  refine ⟨hglen, fun g hg => ⟨((hrows g hg).1).trans hdl, fun v hv => ?_⟩, hcount, ?_, ?_⟩
  · have hvs := (hrows g hg).2 v hv
    rcases List.mem_map.mp hvs with ⟨i, hi, hvi⟩
    rw [← hvi]
    exact list_getD_mem _ i 0 (by rw [hdl]; exact hmem i hi)
  · rw [hcount]; positivity
  · rw [hcount]
    rw [div_le_one (by positivity)]
    have hle : (((chunksQ (data.map (fun r => r.1 - r.2)).length
        (idx.map (fun i => (data.map (fun r => r.1 - r.2)).getD i 0))).map npMean).filter
          (fun b => decide (b < 0))).length ≤ rep := by
      calc _ ≤ ((chunksQ (data.map (fun r => r.1 - r.2)).length
            (idx.map (fun i => (data.map (fun r => r.1 - r.2)).getD i 0))).map npMean).length :=
            List.length_filter_le _ _
        _ = rep := hbslen
    exact_mod_cast hle

/-- C8 (witness): the theorem instantiated on a concrete `2 × 2` matrix
with `rep = 2` and the draw `[0, 1, 1, 0]`. -/
theorem C8_witness :
    1 ≤ ([((1 : ℚ), 2), (3, 1)] : List (ℚ × ℚ)).length ∧
    1 ≤ 2 ∧
    ([0, 1, 1, 0] : List Nat).length = ([((1 : ℚ), 2), (3, 1)] : List (ℚ × ℚ)).length * 2 ∧
    (∀ i ∈ ([0, 1, 1, 0] : List Nat), i < ([((1 : ℚ), 2), (3, 1)] : List (ℚ × ℚ)).length) ∧
    0 ≤ _bootstrap [0, 1, 1, 0] [((1 : ℚ), 2), (3, 1)] ∧
    _bootstrap [0, 1, 1, 0] [((1 : ℚ), 2), (3, 1)] ≤ 1 :=
  ⟨by decide, by decide, by decide, by decide,
   (C8_bootstrap_pvalue [((1 : ℚ), 2), (3, 1)] [0, 1, 1, 0] 2
      (by decide) (by decide) (by decide) (by decide)).2.2.2.1,
   (C8_bootstrap_pvalue [((1 : ℚ), 2), (3, 1)] [0, 1, 1, 0] 2
      (by decide) (by decide) (by decide) (by decide)).2.2.2.2⟩

/- ---------------------------------------------------------------------
Claim C7
--------------------------------------------------------------------- -/

/-- C7: on a trained random-forest selector (≥ 2 classes, probability
vectors as long as the class list), `pred_fuzzy` returns exactly 1 label
when the bootstrap p-value is strictly below `sig_level` and exactly 2
labels when it is at least `sig_level`; the probability sequence always has
the same length as the label sequence, and the labels are the classes at
the leading (1 resp. 2) indices of a descending argsort of the predicted
probabilities — indices that dominate every index outside them. -/
theorem C7_pred_fuzzy_shape (s : MLMSState) (clf : Clf) (h : s.clf = some clf)
    (hC : 2 ≤ clf.classes.length)
    (hproba : ∀ v, (clf.predict_proba v).length = clf.classes.length)
    (extract : List ℚ → List (Option ℚ)) (bootIdx : List Nat) (tsv : List ℚ)
    (ts_scale : Bool) (sig_level : ℚ) :
    ∃ ans, pred_fuzzy extract bootIdx s tsv ts_scale sig_level = .ok ans ∧
      (ans.pvalue < sig_level → ans.label.length = 1) ∧
      (sig_level ≤ ans.pvalue → ans.label.length = 2) ∧
      ans.probability.length = ans.label.length ∧
      ans.label = (((argsortDesc (clf.predict_proba
          (fuzzyTest extract s tsv ts_scale))).take 2).take ans.label.length).map
        (fun i => clf.classes.getD i "") ∧
      ((argsortDesc (clf.predict_proba (fuzzyTest extract s tsv ts_scale))).take 2).Pairwise
        (fun i j => (clf.predict_proba (fuzzyTest extract s tsv ts_scale)).getD j 0
          ≤ (clf.predict_proba (fuzzyTest extract s tsv ts_scale)).getD i 0) ∧
      (∀ j < (clf.predict_proba (fuzzyTest extract s tsv ts_scale)).length,
        j ∉ (argsortDesc (clf.predict_proba (fuzzyTest extract s tsv ts_scale))).take 2 →
        ∀ i ∈ (argsortDesc (clf.predict_proba (fuzzyTest extract s tsv ts_scale))).take 2,
          (clf.predict_proba (fuzzyTest extract s tsv ts_scale)).getD j 0
            ≤ (clf.predict_proba (fuzzyTest extract s tsv ts_scale)).getD i 0) := by
  have hil : ((argsortDesc (clf.predict_proba
      (fuzzyTest extract s tsv ts_scale))).take 2).length = 2 := by
    rw [List.length_take, argsortDesc_length, hproba]
    omega
  have hsorted := (argsortDesc_sorted (clf.predict_proba
    (fuzzyTest extract s tsv ts_scale))).sublist (List.take_sublist 2 _)
  have hdom := argsortDesc_take_dominates (clf.predict_proba
    (fuzzyTest extract s tsv ts_scale)) 2
  by_cases hp : sig_level ≤ fuzzyPValue clf bootIdx (fuzzyTest extract s tsv ts_scale)
      ((argsortDesc (clf.predict_proba (fuzzyTest extract s tsv ts_scale))).take 2)
  · refine ⟨⟨((argsortDesc (clf.predict_proba
            (fuzzyTest extract s tsv ts_scale))).take 2).map
          (fun i => clf.classes.getD i ""),
        ((argsortDesc (clf.predict_proba
            (fuzzyTest extract s tsv ts_scale))).take 2).map
          (fun i => (clf.predict_proba (fuzzyTest extract s tsv ts_scale)).getD i 0),
        fuzzyPValue clf bootIdx (fuzzyTest extract s tsv ts_scale)
          ((argsortDesc (clf.predict_proba (fuzzyTest extract s tsv ts_scale))).take 2)⟩,
      ?_, ?_, ?_, ?_, ?_, hsorted, hdom⟩
    · simp only [pred_fuzzy, h]
      rw [if_pos hp]
    · intro hlt
      exact absurd hp (not_le.mpr hlt)
    · intro _
      rw [List.length_map, hil]
    · rw [List.length_map, List.length_map]
    · rw [List.length_map, hil]
      simp [List.take_take]
  · refine ⟨⟨(((argsortDesc (clf.predict_proba
            (fuzzyTest extract s tsv ts_scale))).take 2).take 1).map
          (fun i => clf.classes.getD i ""),
        (((argsortDesc (clf.predict_proba
            (fuzzyTest extract s tsv ts_scale))).take 2).take 1).map
          (fun i => (clf.predict_proba (fuzzyTest extract s tsv ts_scale)).getD i 0),
        fuzzyPValue clf bootIdx (fuzzyTest extract s tsv ts_scale)
          ((argsortDesc (clf.predict_proba (fuzzyTest extract s tsv ts_scale))).take 2)⟩,
      ?_, ?_, ?_, ?_, ?_, hsorted, hdom⟩
    · simp only [pred_fuzzy, h]
      rw [if_neg hp]
    · intro _
      rw [List.length_map, List.length_take, hil]
      decide
    · intro hge
      exact absurd hge hp
    · rw [List.length_map, List.length_map]
    · rw [List.length_map, List.length_take, hil]
      norm_num

/-- C7 (witness): the statement instantiated on the concrete trained
random-forest selector. -/
theorem C7_witness :
    trainedEx.clf = some clfEx ∧ 2 ≤ clfEx.classes.length ∧
    (∃ ans, pred_fuzzy extractEx [0, 1] trainedEx [1, 2] false (mkRat 1 5) = .ok ans ∧
      (ans.pvalue < mkRat 1 5 → ans.label.length = 1) ∧
      (mkRat 1 5 ≤ ans.pvalue → ans.label.length = 2) ∧
      ans.probability.length = ans.label.length ∧
      ans.label = (((argsortDesc (clfEx.predict_proba
          (fuzzyTest extractEx trainedEx [1, 2] false))).take 2).take ans.label.length).map
        (fun i => clfEx.classes.getD i "") ∧
      ((argsortDesc (clfEx.predict_proba
          (fuzzyTest extractEx trainedEx [1, 2] false))).take 2).Pairwise
        (fun i j => (clfEx.predict_proba (fuzzyTest extractEx trainedEx [1, 2] false)).getD j 0
          ≤ (clfEx.predict_proba (fuzzyTest extractEx trainedEx [1, 2] false)).getD i 0) ∧
      (∀ j < (clfEx.predict_proba (fuzzyTest extractEx trainedEx [1, 2] false)).length,
        j ∉ (argsortDesc (clfEx.predict_proba
          (fuzzyTest extractEx trainedEx [1, 2] false))).take 2 →
        ∀ i ∈ (argsortDesc (clfEx.predict_proba
          (fuzzyTest extractEx trainedEx [1, 2] false))).take 2,
          (clfEx.predict_proba (fuzzyTest extractEx trainedEx [1, 2] false)).getD j 0
            ≤ (clfEx.predict_proba (fuzzyTest extractEx trainedEx [1, 2] false)).getD i 0)) :=
  ⟨rfl, by decide,
   C7_pred_fuzzy_shape trainedEx clfEx rfl (by decide) (fun _ => rfl)
     extractEx [0, 1] [1, 2] false (mkRat 1 5)⟩

/- ---------------------------------------------------------------------
Claim C9
--------------------------------------------------------------------- -/

/-- C9: the three row-aligned series stay equal-length and consistently
indexed: (i) a successful construction produces equal-length series;
(ii) after `preprocess` with any combination of flags the three series have
equal length; (iii) downsampling replaces all three series in lockstep —
one common index list selects the hpt entry, feature row and label of every
output position from the same input row; (iv) scaling replaces the feature
matrix only, leaving `hpt` and `metadataY` untouched (and `preprocess` with
both flags off is the identity). -/
theorem C9_row_alignment (choose : String → List Nat → List Nat) (s : MLMSState)
    (hh : s.hpt.length = s.metadataY.length)
    (hx : s.metadataX.length = s.metadataY.length)
    (hch : ValidChoose choose s.metadataY) :
    (∀ md s0, init (some md) false = .ok (.built s0) →
      s0.hpt.length = s0.metadataY.length ∧
      s0.metadataX.length = s0.metadataY.length) ∧
    (∀ d sc : Bool,
      (preprocess choose d sc s).hpt.length
        = (preprocess choose d sc s).metadataY.length ∧
      (preprocess choose d sc s).metadataX.length
        = (preprocess choose d sc s).metadataY.length) ∧
    (∃ idxs : List Nat, (∀ i ∈ idxs, i < s.metadataY.length) ∧
      fit_resample choose s.hpt s.metadataX s.metadataY =
        (idxs.map (fun i => s.hpt.getD i []),
         idxs.map (fun i => s.metadataX.getD i []),
         idxs.map (fun i => s.metadataY.getD i ""))) ∧
    ((preprocess choose false true s).hpt = s.hpt ∧
     (preprocess choose false true s).metadataY = s.metadataY ∧
     (preprocess choose false true s).metadataX
       = s.metadataX.map (fun row => scaleRowQ s.x_mean s.x_std row)) ∧
    preprocess choose false false s = s := by
  refine ⟨?_, ?_, ?_, ⟨rfl, rfl, rfl⟩, rfl⟩
  · intro md s0 h0
    rw [init] at h0
    simp only [Bool.false_eq_true, if_false] at h0
    split at h0
    · exact absurd h0 (by simp)
    split at h0
    · exact absurd h0 (by simp)
    split at h0
    · exact absurd h0 (by simp)
    split at h0
    · exact absurd h0 (by simp)
    split at h0
    · exact absurd h0 (by simp)
    rename_i hpt0 mX0 mY0 hre
    rw [reorganize] at hre
    split at hre
    · exact absurd hre (by simp)
    injection hre with hre'
    injection hre' with e1 hre2
    injection hre2 with e2 e3
    split at h0
    · exact absurd h0 (by simp)
    injection h0 with h0'
    injection h0' with h0''
    subst h0''
    constructor
    · simp [← e1, ← e3]
    · simp [← e2, ← e3]
  · intro d sc
    have hfit := fit_resample_eq choose s.hpt s.metadataX s.metadataY
    cases d <;> cases sc <;>
      simp [preprocess, hfit, hh, hx]
  · exact ⟨resampleIdx choose s.metadataY,
      resampleIdx_mem choose s.metadataY hch,
      fit_resample_eq choose s.hpt s.metadataX s.metadataY⟩

/-- C9 (witness): the statement instantiated on the concrete two-row
Untrained selector with a deterministic downsampling draw. -/
theorem C9_witness :
    untrainedEx.hpt.length = untrainedEx.metadataY.length ∧
    untrainedEx.metadataX.length = untrainedEx.metadataY.length ∧
    ValidChoose (chooseEx ["arima", "theta"]) untrainedEx.metadataY ∧
    (∃ idxs : List Nat, (∀ i ∈ idxs, i < untrainedEx.metadataY.length) ∧
      fit_resample (chooseEx ["arima", "theta"]) untrainedEx.hpt
          untrainedEx.metadataX untrainedEx.metadataY =
        (idxs.map (fun i => untrainedEx.hpt.getD i []),
         idxs.map (fun i => untrainedEx.metadataX.getD i []),
         idxs.map (fun i => untrainedEx.metadataY.getD i ""))) ∧
    ((preprocess (chooseEx ["arima", "theta"]) false true untrainedEx).hpt
        = untrainedEx.hpt ∧
     (preprocess (chooseEx ["arima", "theta"]) false true untrainedEx).metadataY
        = untrainedEx.metadataY ∧
     (preprocess (chooseEx ["arima", "theta"]) false true untrainedEx).metadataX
        = untrainedEx.metadataX.map
            (fun row => scaleRowQ untrainedEx.x_mean untrainedEx.x_std row)) :=
  ⟨rfl, rfl, by decide,
   (C9_row_alignment (chooseEx ["arima", "theta"]) untrainedEx rfl rfl
      (by decide)).2.2.1,
   (C9_row_alignment (chooseEx ["arima", "theta"]) untrainedEx rfl rfl
      (by decide)).2.2.2.1⟩

/- ---------------------------------------------------------------------
Claim C10
--------------------------------------------------------------------- -/

/-- Reads below the original store length are unaffected by appending fresh
arrays and then mutating a cell at or beyond it. -/
theorem getElem?_append_set_ge (σ τ : Store) (j : Nat) (m : OMat) (r : Nat)
    (hr : r < σ.length) (hj : σ.length ≤ j) :
    ((σ ++ τ).set j m)[r]? = σ[r]? := by
  rw [List.getElem?_set_ne (by omega), List.getElem?_append, if_pos hr]

/-- A result whose two `if` branches are both `.ok` is `.ok` of
something. -/
theorem ite_ok_exists (x y : PredResult) (c : Prop) [Decidable c] :
    ∃ res, (if c then Except.ok x else Except.ok y : Except PyError PredResult)
      = .ok res := by
  by_cases hc : c
  · exact ⟨x, if_pos hc⟩
  · exact ⟨y, if_neg hc⟩

/-- C10: on a trained selector, `pred_by_feature` run against the array
heap leaves every array of the caller's ndarray / list-of-ndarrays argument
unchanged — the fit-time scaling and the in-place NaN→0 assignment hit only
the freshly allocated copy (`source_x.copy()` / `np.row_stack(source_x)`),
never the argument — and it succeeds with a prediction. -/
theorem C10_pred_by_feature_frame (s : MLMSState) (clf : Clf)
    (h : s.clf = some clf) (σ : Store) (src : SourceXRef)
    (hdf : src.isDF = false) (hrefs : ∀ r ∈ callerRefs src, r < σ.length)
    (n_top : Nat) :
    (∀ r ∈ callerRefs src, (pred_by_feature_store s σ src n_top).1[r]? = σ[r]?) ∧
    ∃ res, (pred_by_feature_store s σ src n_top).2 = .ok res := by
  have frame : ∀ (m0 : OMat) (r : Nat), r < σ.length →
      ∀ σ3 : Store, (σ3 = (if s.scale then
          ((σ ++ [m0]) ++ [((σ ++ [m0]).getD σ.length []).map
              (scaleRowO s.x_mean s.x_std)], (σ ++ [m0]).length)
        else (σ ++ [m0], σ.length)).1.set
          (if s.scale then
            ((σ ++ [m0]) ++ [((σ ++ [m0]).getD σ.length []).map
                (scaleRowO s.x_mean s.x_std)], (σ ++ [m0]).length)
          else (σ ++ [m0], σ.length)).2
          ((((if s.scale then
              ((σ ++ [m0]) ++ [((σ ++ [m0]).getD σ.length []).map
                  (scaleRowO s.x_mean s.x_std)], (σ ++ [m0]).length)
            else (σ ++ [m0], σ.length)).1.getD
            (if s.scale then
              ((σ ++ [m0]) ++ [((σ ++ [m0]).getD σ.length []).map
                  (scaleRowO s.x_mean s.x_std)], (σ ++ [m0]).length)
            else (σ ++ [m0], σ.length)).2 [])).map
              (fun row => row.map (fun v => some (v.getD 0))))) →
        σ3[r]? = σ[r]? := by
    intro m0 r hr σ3 hσ3
    by_cases hsc : s.scale
    · subst hσ3
      simp only [hsc, if_true]
      rw [List.append_assoc]
      exact getElem?_append_set_ge σ _ _ _ r hr (by simp)
    · subst hσ3
      simp only [hsc, if_false, Bool.false_eq_true]
      exact getElem?_append_set_ge σ _ _ _ r hr (by simp)
  cases src with
  | dataFrameRef r => simp [SourceXRef.isDF] at hdf
  | ndarrayRef r0 =>
    simp only [pred_by_feature_store, h]
    constructor
    · intro r hr
      exact frame (σ.getD r0 []) r (hrefs r hr) _ rfl
    · exact ite_ok_exists _ _ _
  | pylistRefs rs =>
    simp only [pred_by_feature_store, h]
    constructor
    · intro r hr
      exact frame (rowStack (rs.map (fun t => σ.getD t []))) r (hrefs r hr) _ rfl
    · exact ite_ok_exists _ _ _

/-- C10 (witness): the statement instantiated on a concrete one-array
store. -/
theorem C10_witness :
    trainedEx.clf = some clfEx ∧
    (SourceXRef.ndarrayRef 0).isDF = false ∧
    (∀ r ∈ callerRefs (.ndarrayRef 0), r < ([[[some 1, none]]] : Store).length) ∧
    (∀ r ∈ callerRefs (.ndarrayRef 0),
      (pred_by_feature_store trainedEx [[[some 1, none]]] (.ndarrayRef 0) 1).1[r]?
        = ([[[some 1, none]]] : Store)[r]?) ∧
    (∃ res, (pred_by_feature_store trainedEx [[[some 1, none]]]
        (.ndarrayRef 0) 1).2 = .ok res) :=
  ⟨rfl, rfl, by decide,
   (C10_pred_by_feature_frame trainedEx clfEx rfl [[[some 1, none]]]
     (.ndarrayRef 0) rfl (by decide) 1).1,
   (C10_pred_by_feature_frame trainedEx clfEx rfl [[[some 1, none]]]
     (.ndarrayRef 0) rfl (by decide) 1).2⟩

end Kats
